import Mathlib

/-!
Shallow embedding of the testtxt parsing-and-expansion engine
(`src/unnamed/part_000`, package `testtxt`).

Text is modelled as `List Char` (named `Str` below); the Go byte cursor
`state.rest` is an explicit suffix of `state.src`.  Error values are the
formatted message strings the Go code builds with `fmt.Errorf`.
`fmt` verb `%q` is modelled for strings without characters that need
escaping (all inputs in this development are such strings).

The recursive scanning loops of the Go code are embedded as structurally
recursive functions over an explicit fuel argument; every wrapper supplies
fuel strictly larger than the number of possible iterations (each loop
iteration of the Go code consumes at least one byte of the remaining
input), so the fuel-exhausted branches are unreachable from the wrappers.

External collaborators of the engine (the `text/template` execution engine
and the YAML decoder, both third-party libraries, not code of this
repository) are modelled only on the fragment the engine itself exercises
in the verified claims: template bodies that contain no template
directives execute to themselves.  Calls that pass a data argument and
bodies containing directives take a distinguished `unmodelled` error
branch that no claim below reaches.
-/

namespace Testtxt

/-- Text as a list of characters; the Go code works on `[]byte` / `string`. -/
abbrev Str := List Char

/-- Model of Go `lower` (testtxt.go): sets the ASCII-case bit. -/
def lowerN (n : Nat) : Nat := n ||| 32

/-- Model of Go `isLetter`: ASCII letter or underscore. -/
def isLetterC (c : Char) : Bool :=
  (decide (97 ≤ lowerN c.toNat) && decide (lowerN c.toNat ≤ 122)) || c = '_'

/-- Model of Go `isDecimal`. -/
def isDecimalC (c : Char) : Bool :=
  decide (48 ≤ c.toNat) && decide (c.toNat ≤ 57)

/-- Character class of marker names (`isName`) and of the template-call
regular expression `(?i)[a-z0-9_]` — the two coincide. -/
def isNameChar (c : Char) : Bool := isLetterC c || isDecimalC c

/-- Model of Go `isName`: every character a letter, digit or underscore. -/
def isName (n : Str) : Bool := n.all isNameChar

/-- Model of Go `unicode.IsSpace`, used by `strings.TrimSpace`. -/
def isSpaceGo (c : Char) : Bool :=
  let n := c.toNat
  n = 32 || n = 9 || n = 10 || n = 11 || n = 12 || n = 13 ||
  n = 0x85 || n = 0xA0 || n = 0x1680 ||
  (decide (0x2000 ≤ n) && decide (n ≤ 0x200A)) ||
  n = 0x2028 || n = 0x2029 || n = 0x202F || n = 0x205F || n = 0x3000

/-- Model of Go `strings.TrimSpace`. -/
def trimSpace (s : Str) : Str :=
  ((s.dropWhile isSpaceGo).reverse.dropWhile isSpaceGo).reverse

/-- Model of `state.getLine`: the current line including its trailing
newline, or the whole rest if no newline is present. -/
def getLine : Str → Str
  | [] => []
  | c :: rest => if c = '\n' then [c] else c :: getLine rest

/-- The current line without its trailing newline (the `s.rest[:idx]`
slice taken inside `state.readDef` and `state.readTemplName`). -/
def takeLine (rest : Str) : Str := rest.takeWhile (fun c => ¬ c = '\n')

/-- Index of the first `=` in a string, as `strings.Index(line[1:], "=")`. -/
def eqIdx : Str → Option Nat
  | [] => none
  | c :: r => if c = '=' then some 0 else (eqIdx r).map (· + 1)

/-- Model of `state.checkDef`: the marker name of a `=NAME=...` line,
or `[]` when the line is not a marker line. -/
def checkDef (line : Str) : Str :=
  match line with
  | [] => []
  | c :: rest =>
    if c = '=' then
      match eqIdx rest with
      | none => []
      | some i =>
        let name := rest.take i
        if ¬ name = [] ∧ isName name then name else []
    else []

/-- Character used to model the left brace of a template directive
without writing the brace in source text. -/
def lbrace : Char := Char.ofNat 123

/-- Parser state, as the Go `state` struct.  The template registry maps
names to template bodies (already expanded at registration time); a new
binding is prepended, so an earlier binding for the same name is
shadowed, which models overwriting the map entry. -/
structure PState where
  src : Str
  rest : Str
  templates : List (Str × Str)
  filename : String
deriving DecidableEq

-- Equality of fallible results is decidable, enabling concrete
-- evaluation of the embedded operations inside witnesses.
deriving instance DecidableEq for Except

/-- Lookup in the template registry (first binding wins). -/
def lookupT : List (Str × Str) → Str → Option Str
  | [], _ => none
  | (k, v) :: rest, n => if k = n then some v else lookupT rest n

/-- Model of Go `%q` for strings without characters that need escaping. -/
def goQuote (s : Str) : Str := '"' :: (s ++ ['"'])

/-- Decimal rendering of a line number for error messages. -/
def natStr (n : Nat) : Str := (toString n).data

/-- The single-quote character of the `expecting token` message, built
numerically. -/
def squote : Char := Char.ofNat 39

/-- Model of `state.currentLine`: one plus the newlines in the consumed
prefix of the source. -/
def currentLineN (src rest : Str) : Nat :=
  1 + (src.take (src.length - rest.length)).count '\n'

/-- Message of the scanner-level syntax error raised by `state.readDef`. -/
def expectTokMsg (nr : Nat) (filename : String) (line : Str) : Str :=
  "expecting token ".data ++ [squote] ++ "=...=".data ++ [squote] ++
  " at line ".data ++ natStr nr ++ " of file ".data ++
  goQuote filename.data ++ ": ".data ++ line

/-- Message of the EOF-without-title error of `state.parse`. -/
def missingTitleMsg (title : Str) (filename : String) : Str :=
  "missing =".data ++ title ++ "= in first test of file ".data ++
  goQuote filename.data

/-- Message of the title-ordering error of `state.parse`. -/
def mustDefineMsg (title name : Str) : Str :=
  "must define =".data ++ title ++ "= before =".data ++ name ++ "=".data

/-- Message of the duplicate-marker error of `state.parse`. -/
def foundMultipleMsg (name title tVal : Str) : Str :=
  "found multiple =".data ++ name ++ "= in test with =".data ++ title ++
  "=".data ++ tVal

/-- Model of the `withContext` closure of `state.parse`: appends either
the open record context or the file context to an error message. -/
def withContext (title tVal : Str) (filename : String) (e : Str) : Str :=
  if ¬ tVal = [] then
    e ++ " in test with =".data ++ title ++ "=".data ++ tVal
  else
    e ++ " in file ".data ++ goQuote filename.data

/-- Loop of `state.readDef` that skips blank lines and `#` comment
lines; returns `[]` exactly when clean end-of-input is reached.  The
fuel bounds the number of skipped lines. -/
def skipBlanksF : Nat → Str → Str
  | 0, rest => rest
  | fuel + 1, rest =>
    let line := takeLine rest
    let t := trimSpace line
    if t = [] ∨ t.headD ' ' = '#' then
      if line.length = rest.length then []
      else skipBlanksF fuel (rest.drop (line.length + 1))
    else rest

/-- Wrapper of `skipBlanksF` with sufficient fuel. -/
def skipBlanks (rest : Str) : Str := skipBlanksF (rest.length + 1) rest

/-- Model of `state.readDef`: skip blank and comment lines, then read a
marker name; name `[]` signals end-of-input; a non-marker line is the
scanner-level syntax error with line number and raw line. -/
def readDef (s : PState) : Except Str (Str × PState) :=
  let r := skipBlanks s.rest
  if r = [] then .ok ([], { s with rest := [] })
  else
    let line := takeLine r
    let name := checkDef line
    if name = [] then
      .error (expectTokMsg (currentLineN s.src r) s.filename line)
    else .ok (name, { s with rest := r.drop (name.length + 2) })

/-- Multi-line loop of `state.readText`: accumulate lines verbatim until
a marker line or end-of-input; an `=END=` marker consumes exactly the
five characters `=END=`.  Fuel bounds the number of accumulated lines. -/
def readTextAuxF : Nat → Str → Str × Str
  | 0, rest => ([], rest)
  | fuel + 1, rest =>
    let line := getLine rest
    let name := checkDef line
    if ¬ name = [] ∨ line = [] then
      if name = "END".data then ([], rest.drop 5) else ([], rest)
    else
      let p := readTextAuxF fuel (rest.drop line.length)
      (line ++ p.1, p.2)

/-- Model of `state.readText`: single-line form when the rest of the
marker line is non-blank after trimming, multi-line form otherwise.
Returns the raw block text and the new cursor. -/
def readText (rest : Str) : Str × Str :=
  let line := getLine rest
  let rest1 := rest.drop line.length
  let t := trimSpace line
  if ¬ t = [] then (t, rest1)
  else readTextAuxF (rest1.length + 1) rest1

/-- Whitespace class of the RE2 escape used in the template-call pattern
(`\s` is tab, newline, form feed, carriage return, space). -/
def isWsRe (c : Char) : Bool :=
  c = '\t' || c = '\n' || c = '\x0c' || c = '\r' || c = ' '

/-- Distance to the end of a match of the lazy tail of the template-call
pattern starting at the current position: the lazy part stops at the
first position where `]]` occurs, absorbing one extra `]` when the
position starts with `]]]` (the `\s+.*?\]?\]\]` tail of `templRx`). -/
def findCloser : Str → Option Nat
  | [] => none
  | c :: rest =>
    if ([']', ']', ']'] : Str).isPrefixOf (c :: rest) then some 3
    else if ([']', ']'] : Str).isPrefixOf (c :: rest) then some 2
    else (findCloser rest).map (· + 1)

/-- Length of a match of the template-call regular expression
`templRx = (?is)\[\[[a-z0-9_]+(\s+.*?\]?)?\]\]` starting at the head of
`s`, or `none` when no match starts here.  The name class is matched
greedily (the character after the greedy name run must be whitespace or
`]`, so no backtracking into the name run can succeed). -/
def matchLen (s : Str) : Option Nat :=
  match s with
  | c1 :: c2 :: rest =>
    if c1 = '[' ∧ c2 = '[' then
      let nm := rest.takeWhile isNameChar
      if nm = [] then none
      else
        match rest.drop nm.length with
        | [] => none
        | c :: rest2 =>
          if isWsRe c then (findCloser rest2).map (fun m => 2 + nm.length + 1 + m)
          else if c = ']' then
            match rest2 with
            | c3 :: _ => if c3 = ']' then some (2 + nm.length + 2) else none
            | [] => none
          else none
    else none
  | _ => none

/-- Whether `pat` occurs as a contiguous substring of `s`
(Go `strings.Contains`). -/
def hasInfix (s pat : Str) : Bool :=
  match s with
  | [] => pat.isPrefixOf []
  | c :: r => pat.isPrefixOf (c :: r) || hasInfix r pat

/-- Marker of the modelling boundary: template bodies containing
`text/template` directives are executed by the external engine and are
outside this model. -/
def unmodelledT : Str := "unmodelled: template body contains directives".data

/-- Marker of the modelling boundary: template calls carrying a YAML data
argument are decoded and executed by external libraries and are outside
this model. -/
def unmodelledY : Str := "unmodelled: template call with data argument".data

/-- Execution of a registered template body with no data argument: a
directive-free body renders as itself; bodies with directives are outside
the model. -/
def execTemplate (body : Str) : Except Str Str :=
  if hasInfix body [lbrace, lbrace] then .error unmodelledT else .ok body

/-- Position of the first space, tab or newline in the bracket pair
payload (`strings.IndexAny(pair, " \t\n")` in `state.doTemplSubst`). -/
def idxAnyWs (s : Str) : Option Nat :=
  match s with
  | [] => none
  | c :: r =>
    if c = ' ' ∨ c = '\t' ∨ c = '\n' then some 0
    else (idxAnyWs r).map (· + 1)

/-- Processing of one matched `[[...]]` pair in `state.doTemplSubst`:
split at the first whitespace into name and data, look the name up in
the registry, execute.  Data-carrying calls are outside the model. -/
def execCall (tm : List (Str × Str)) (pair : Str) : Except Str Str :=
  match idxAnyWs pair with
  | some _ => .error unmodelledY
  | none =>
    match lookupT tm pair with
    | none => .error ("calling unknown template ".data ++ goQuote pair)
    | some body => execTemplate body

/-- Scan of `state.doTemplSubst` over the block text: at each position a
match of `templRx` is replaced by the executed template output and the
scan continues after the match (`FindAllStringIndex` semantics: leftmost,
non-overlapping, the replacement text is not rescanned).  Fuel bounds the
number of scanned positions. -/
def doTemplSubstAuxF (tm : List (Str × Str)) : Nat → Str → Except Str Str
  | 0, text => .ok text
  | fuel + 1, text =>
    match matchLen text with
    | some len =>
      let pair := (text.drop 2).take (len - 4)
      match execCall tm pair with
      | .error e => .error e
      | .ok out =>
        match doTemplSubstAuxF tm fuel (text.drop len) with
        | .error e => .error e
        | .ok t => .ok (out ++ t)
    | none =>
      match text with
      | [] => .ok []
      | c :: rest =>
        match doTemplSubstAuxF tm fuel rest with
        | .error e => .error e
        | .ok t => .ok (c :: t)

/-- Model of `state.doTemplSubst` on a block text. -/
def doTemplSubst (tm : List (Str × Str)) (text : Str) : Except Str Str :=
  doTemplSubstAuxF tm (text.length + 1) text

/-- Model of `strings.Split` with a one-character separator. -/
def splitOnChar (d : Char) : Str → List Str
  | [] => [[]]
  | c :: rest =>
    if c = d then [] :: splitOnChar d rest
    else
      match splitOnChar d rest with
      | [] => [[c]]
      | h :: t => (c :: h) :: t

/-- Replacement loop of `strings.ReplaceAll` for a non-empty pattern:
replace each leftmost occurrence and continue after the replacement.
Fuel bounds the number of scanned positions. -/
def replacePosF (old new : Str) : Nat → Str → Str
  | 0, s => s
  | fuel + 1, s =>
    match s with
    | [] => []
    | c :: rest =>
      if old.isPrefixOf (c :: rest) then
        new ++ replacePosF old new fuel ((c :: rest).drop old.length)
      else c :: replacePosF old new fuel rest

/-- Model of Go `strings.ReplaceAll`; an empty pattern inserts the
replacement at every position including both ends. -/
def replaceAll (s old new : Str) : Str :=
  if old = [] then new ++ s.flatMap (fun c => c :: new)
  else replacePosF old new (s.length + 1) s

/-- Loop of `state.applySubst`: consume consecutive `=SUBST=` marker
lines, each contributing one literal replacement rule applied to the
block text; stop at the first non-`SUBST` line.  Fuel bounds the number
of consumed lines. -/
def applySubstF : Nat → Str → Str → Except Str (Str × Str)
  | 0, rest, text => .ok (text, rest)
  | fuel + 1, rest, text =>
    let line := getLine rest
    let name := checkDef line
    if name = "SUBST".data then
      let rest1 := rest.drop line.length
      let l1 := trimSpace (line.drop 7)
      if l1 = [] then .error "invalid empty substitution".data
      else
        let d := l1.headD ' '
        match splitOnChar d (l1.drop 1) with
        | [a, b, c] =>
          if c = [] then applySubstF fuel rest1 (replaceAll text a b)
          else .error ("invalid substitution: =SUBST=".data ++ l1)
        | _ => .error ("invalid substitution: =SUBST=".data ++ l1)
    else .ok (text, rest)

/-- Model of `state.readExpandedText`: raw block extraction, template
call substitution, then trailing substitution rules. -/
def readExpandedText (s : PState) : Except Str (Str × PState) :=
  let p := readText s.rest
  match doTemplSubst s.templates p.1 with
  | .error e => .error e
  | .ok t1 =>
    match applySubstF (p.2.length + 1) p.2 t1 with
    | .error e => .error e
    | .ok q => .ok (q.1, { s with rest := q.2 })

/-- Model of `state.readTemplName`: the template name is the trimmed
remainder of the `=TEMPL=` line; the trailing newline is not consumed. -/
def readTemplName (s : PState) : Except Str (Str × PState) :=
  let line := takeLine s.rest
  let rest1 := if line.length = s.rest.length then [] else s.rest.drop line.length
  let name := trimSpace line
  if name = [] then .error "missing name after =TEMPL=".data
  else if ¬ isName name then
    .error ("invalid name after =TEMPL=: ".data ++ goQuote name)
  else .ok (name, { s with rest := rest1 })

/-- Model of `strings.TrimSuffix(text, "\n")`: removes one trailing
newline if present. -/
def trimOneSuffixNl (s : Str) : Str :=
  if s.getLast? = some '\n' then s.dropLast else s

/-- Model of `state.templDef`: read the name line, read the expanded
body (so template calls inside the body are resolved now, at
registration time), trim one trailing newline, reject an empty body,
and register the body under the name, shadowing any earlier binding. -/
def templDef (s : PState) : Except Str PState :=
  match readTemplName s with
  | .error e => .error e
  | .ok (name, s1) =>
    match readExpandedText s1 with
    | .error e => .error e
    | .ok (text, s2) =>
      let body := trimOneSuffixNl text
      if body = [] then .error ("missing text after =TEMPL=".data ++ name)
      else if hasInfix body [lbrace, lbrace] then .error unmodelledT
      else .ok { s2 with templates := (name, body) :: s2.templates }

/-- The kind of a declared record field; `other` covers every reflect
kind outside string, int and bool, carrying the kind name printed in the
`unexpected type` error. -/
inductive FKind where
  | str
  | int
  | bool
  | other (kindName : Str)
deriving DecidableEq

/-- One declared field of the caller's record shape: the Go struct field
name, its kind, and whether it is exported. -/
structure Field where
  goName : Str
  kind : FKind
  exported : Bool
deriving DecidableEq

/-- A field value stored in a record. -/
inductive Value where
  | vstr (s : Str)
  | vint (i : Int)
  | vbool (b : Bool)
deriving DecidableEq

/-- One record: field values in declaration order. -/
abbrev Rec := List Value

/-- The zero value of a field, as produced when `addElement` grows the
slice by one zeroed struct. -/
def zeroVal : FKind → Value
  | .str => .vstr []
  | .int => .vint 0
  | .bool => .vbool false
  | .other _ => .vstr []

/-- A fresh zeroed record. -/
def zeroRec (fs : List Field) : Rec := fs.map (fun f => zeroVal f.kind)

/-- ASCII upper case of one character (`strings.ToUpper`). -/
def toUpperChar (c : Char) : Char :=
  if decide (97 ≤ c.toNat) && decide (c.toNat ≤ 122) then Char.ofNat (c.toNat - 32) else c

/-- ASCII upper-case test. -/
def isUpperC (c : Char) : Bool := decide (65 ≤ c.toNat) && decide (c.toNat ≤ 90)

/-- ASCII lower-case test. -/
def isLowerC (c : Char) : Bool := decide (97 ≤ c.toNat) && decide (c.toNat ≤ 122)

/-- Replacement pass of `matchFirstCap = (.)([A-Z][a-z]+)` with
`$\x7b1\x7d_$\x7b2\x7d`: insert an underscore between any character and a
following capital that starts a capital-lowercase run; matches are
leftmost and non-overlapping, the lowercase run is greedy.  Fuel bounds
the number of scanned positions. -/
def firstCapReplF : Nat → Str → Str
  | 0, s => s
  | fuel + 1, s =>
    match s with
    | c1 :: c2 :: c3 :: rest =>
      if isUpperC c2 && isLowerC c3 then
        let run := rest.takeWhile isLowerC
        c1 :: '_' :: c2 :: c3 :: run ++ firstCapReplF fuel (rest.drop run.length)
      else c1 :: firstCapReplF fuel (c2 :: c3 :: rest)
    | other => other

/-- Replacement pass of `matchAllCap = ([a-z0-9])([A-Z])` with
`$\x7b1\x7d_$\x7b2\x7d`, leftmost and non-overlapping. -/
def allCapRepl : Str → Str
  | c1 :: c2 :: rest =>
    if (isLowerC c1 || isDecimalC c1) && isUpperC c2 then
      c1 :: '_' :: c2 :: allCapRepl rest
    else c1 :: allCapRepl (c2 :: rest)
  | s => s

/-- Model of `toSnakeCase`: the two regular-expression passes followed by
`strings.ToUpper`. -/
def toSnakeCase (s : Str) : Str :=
  (allCapRepl (firstCapReplF (s.length + 1) s)).map toUpperChar

/-- Numeric value of a digit string. -/
def digitsToNat (ds : Str) : Nat := ds.foldl (fun a c => a * 10 + (c.toNat - 48)) 0

/-- Sign-splitting step of `strconv.ParseInt`: strip one optional leading
`+` or `-`; the flag is true for a negative number. -/
def intSyntaxSplit (s : Str) : Bool × Str :=
  match s with
  | [] => (false, [])
  | c :: r => if c = '+' then (false, r) else if c = '-' then (true, r) else (false, s)

/-- Whether a string is a signed decimal integer literal accepted by
`strconv.ParseInt(s, 10, 64)` apart from the 64-bit range check. -/
def goIntSyntax (s : Str) : Bool :=
  ¬ (intSyntaxSplit s).2 = [] && (intSyntaxSplit s).2.all isDecimalC

/-- Model of `strconv.ParseInt(s, 10, 64)` including its error strings:
optional sign, non-empty decimal digits, 64-bit signed range. -/
def parseIntGo (s : Str) : Except Str Int :=
  let p := intSyntaxSplit s
  if p.2 = [] ∨ ¬ p.2.all isDecimalC then
    .error ("strconv.ParseInt: parsing ".data ++ goQuote s ++ ": invalid syntax".data)
  else
    let n := digitsToNat p.2
    if p.1 then
      if n ≤ 2 ^ 63 then .ok (-(n : Int))
      else .error ("strconv.ParseInt: parsing ".data ++ goQuote s ++ ": value out of range".data)
    else
      if n < 2 ^ 63 then .ok (n : Int)
      else .error ("strconv.ParseInt: parsing ".data ++ goQuote s ++ ": value out of range".data)

/-- Model of `setVal` over the field list and the field values of one
record: find the first field whose snake-cased name equals the marker
name, require it to be exported, and coerce the block text by the field
kind; an unmatched marker is the `unexpected =NAME=` error. -/
def setValAux : List Field → Rec → Str → Str → Except Str Rec
  | [], _, name, _ => .error ("unexpected =".data ++ name ++ "=".data)
  | _ :: _, [], name, _ => .error ("unexpected =".data ++ name ++ "=".data)
  | f :: fs, v :: vs, name, text =>
    if toSnakeCase f.goName = name then
      if f.exported = false then
        .error ("struct field ".data ++ goQuote f.goName ++ " must be exported".data)
      else
        match f.kind with
        | .str => .ok (.vstr text :: vs)
        | .int =>
          match parseIntGo (trimSpace text) with
          | .error e =>
            .error ("invalid value for struct field ".data ++ goQuote f.goName ++ ": ".data ++ e)
          | .ok i => .ok (.vint i :: vs)
        | .bool => .ok (.vbool true :: vs)
        | .other k =>
          .error ("unexpected type ".data ++ goQuote k ++ " of struct field ".data ++ goQuote f.goName)
    else
      match setValAux fs vs name text with
      | .error e => .error e
      | .ok vs' => .ok (v :: vs')

/-- Application of `setVal` to the last record of the output slice (the
Go `el` is a reference to the last slice element). -/
def setValLast (fields : List Field) (recs : List Rec) (name text : Str) :
    Except Str (List Rec) :=
  match recs.getLast? with
  | none => .error "internal: empty record list".data
  | some r =>
    match setValAux fields r name text with
    | .error e => .error e
    | .ok r' => .ok (recs.dropLast ++ [r'])

/-- Outcome of a parse: the final content of the caller-supplied slice,
alone on success or together with the error on failure (the Go code
returns only the error, but the slice was mutated through the caller's
pointer, so its content at failure time is observable by the caller). -/
inductive PResult where
  | ok (recs : List Rec)
  | err (msg : Str) (recs : List Rec)
deriving DecidableEq

/-- Main loop of `state.parse`.  `recs` is the caller's slice (its last
element is the record under construction), `seen` the per-record set of
already-bound marker names, `tVal` the title value of the open record
(empty while no record is open), `first` whether no title has been seen
yet.  Fuel bounds the number of markers read; each iteration of the Go
loop consumes at least three bytes of the remaining input, so the
wrapper's fuel of input length plus one is never exhausted. -/
def parseLoop (fields : List Field) (title : Str) :
    Nat → PState → List Rec → List Str → Str → Bool → PResult
  | 0, _, recs, _, _, _ => .err "internal: fuel exhausted".data recs
  | fuel + 1, s, recs, seen, tVal, first =>
    match readDef s with
    | .error e => .err e recs
    | .ok (name, s1) =>
      if name = [] then
        if first then .err (missingTitleMsg title s.filename) recs else .ok recs
      else if name = "TEMPL".data then
        match templDef s1 with
        | .error e => .err (withContext title tVal s.filename e) recs
        | .ok s2 => parseLoop fields title fuel s2 recs seen tVal first
      else if name = "SUBST".data then
        .err (withContext title tVal s.filename
          "=SUBST= is only valid at bottom of text block".data) recs
      else
        match readExpandedText s1 with
        | .error e => .err (withContext title tVal s.filename e) recs
        | .ok (text, s2) =>
          if name = title then
            let recs1 := if seen.contains name then recs ++ [zeroRec fields] else recs
            match setValLast fields recs1 name text with
            | .error e => .err (withContext title text s.filename e) recs1
            | .ok recs2 => parseLoop fields title fuel s2 recs2 [name] text false
          else if first then
            .err (withContext title tVal s.filename (mustDefineMsg title name)) recs
          else if seen.contains name then
            .err (foundMultipleMsg name title tVal) recs
          else
            match setValLast fields recs name text with
            | .error e => .err (withContext title tVal s.filename e) recs
            | .ok recs2 => parseLoop fields title fuel s2 recs2 (name :: seen) tVal first

/-- Initial parser state over an in-memory document. -/
def initState (doc : String) (filename : String) : PState :=
  { src := doc.data, rest := doc.data, templates := [], filename := filename }

/-- Model of `ParseFile` applied to a caller-supplied pointer to an empty
slice of structs, composed with `state.parse`: the slice first grows by
one zeroed element, the field list is checked non-empty, the title
marker name is the snake-cased first field name, then the main loop
runs.  (The reflect-level checks that the argument is a pointer to an
empty slice of structs are outside a typed model; the argument here is
the field list itself.) -/
def parse (fields : List Field) (doc : String) (filename : String) : PResult :=
  match fields with
  | [] => .err "expecting struct with at least one field".data [[]]
  | f :: fs =>
    parseLoop (f :: fs) (toSnakeCase f.goName) (doc.data.length + 1)
      (initState doc filename) [zeroRec (f :: fs)] [] [] true

/-- Schema with fields `Title string` and `Input string`. -/
def fieldsTI : List Field :=
  [⟨"Title".data, .str, true⟩, ⟨"Input".data, .str, true⟩]

/-- Schema with fields `Title string` and `Count int`. -/
def fieldsTC : List Field :=
  [⟨"Title".data, .str, true⟩, ⟨"Count".data, .int, true⟩]

/-- Schema with fields `Title string`, `Input string` and `Other string`. -/
def fieldsTIO : List Field :=
  [⟨"Title".data, .str, true⟩, ⟨"Input".data, .str, true⟩, ⟨"Other".data, .str, true⟩]

/-- Schema with a `Title string` field and a field `Bad` of unsupported
(slice) type. -/
def fieldsBad : List Field :=
  [⟨"Title".data, .str, true⟩, ⟨"Bad".data, .other "slice".data, true⟩]

/-- Parser state whose whole source is the given document, with file
name `file` (as in the repository's tests). -/
def exSt (doc : String) : PState :=
  { src := doc.data, rest := doc.data, templates := [], filename := "file" }

/-- Whether a text contains no occurrence of two consecutive opening
brackets, i.e. no possible start of a `[[...]]` template call. -/
def noCall : Str → Bool
  | [] => true
  | [_] => true
  | c1 :: c2 :: r => if c1 = '[' ∧ c2 = '[' then false else noCall (c2 :: r)

/-- Body line of a multi-line block in general position: contains no
newline (it is one line) and, with its newline appended, is not a marker
line.  Blank lines satisfy this predicate. -/
def plainLine (l : Str) : Bool :=
  l.all (fun c => ¬ c = '\n') && decide (checkDef (l ++ ['\n']) = [])

/-- Concatenation of line contents into a text, appending one newline to
each line. -/
def joinLines : List Str → Str
  | [] => []
  | l :: ls => l ++ '\n' :: joinLines ls

/-! Helper lemmas shared by the claim theorems. -/

/-- A text without a bracket-pair start keeps the property on its tail. -/
theorem noCall_tail {c : Char} {r : Str} (h : noCall (c :: r) = true) : noCall r = true := by
  cases r with
  | nil => rfl
  | cons c2 rr =>
    rw [noCall] at h
    by_cases hc : c = '[' ∧ c2 = '['
    · simp [hc] at h
    · simpa [hc] using h

/-- The template-call pattern never matches at a position of a text that
contains no two consecutive opening brackets. -/
theorem matchLen_of_noCall {t : Str} (h : noCall t = true) : matchLen t = none := by
  match t with
  | [] => rfl
  | [c] => rfl
  | c1 :: c2 :: r =>
    rw [noCall] at h
    by_cases hc : c1 = '[' ∧ c2 = '['
    · simp [hc] at h
    · simp [matchLen, hc]

/-- Template-call substitution is the identity on texts without a
bracket-pair start, for every fuel. -/
theorem doTemplSubstAuxF_of_noCall (tm : List (Str × Str)) :
    ∀ fuel t, noCall t = true → doTemplSubstAuxF tm fuel t = .ok t := by
  intro fuel
  induction fuel with
  | zero => intro t _; rfl
  | succ n ih =>
    intro t h
    simp only [doTemplSubstAuxF, matchLen_of_noCall h]
    cases t with
    | nil => rfl
    | cons c r => simp only [ih r (noCall_tail h)]

/-- Reading one line of a newline-free line content followed by a
newline yields exactly that line with its newline. -/
theorem getLine_joined {l : Str} (h : ∀ c ∈ l, ¬ c = '\n') (rest : Str) :
    getLine (l ++ '\n' :: rest) = l ++ ['\n'] := by
  induction l with
  | nil => simp [getLine]
  | cons c r ih =>
    have hc : ¬ c = '\n' := h c (by simp)
    simp only [List.cons_append, getLine, if_neg hc, List.append_eq]
    rw [ih (fun x hx => h x (by simp [hx]))]

/-- Joining lines yields at least one character per line. -/
theorem joinLines_length_ge (body : List Str) : body.length ≤ (joinLines body).length := by
  induction body with
  | nil => simp [joinLines]
  | cons l ls ih =>
    simp only [joinLines, List.length_cons, List.length_append, List.length_cons]
    omega

/-- Behaviour of the multi-line accumulation loop on a body of
non-marker lines followed by a stop position (a marker line or
end-of-input): everything up to the stop is accumulated, blank lines
included; at an `=END=` stop exactly five characters are consumed. -/
theorem readTextAuxF_joined (body : List Str) :
    ∀ (fuel : Nat) (rest : Str), body.length < fuel →
    (∀ l ∈ body, plainLine l = true) →
    (¬ checkDef (getLine rest) = [] ∨ rest = []) →
    readTextAuxF fuel (joinLines body ++ rest) =
      (joinLines body, if checkDef (getLine rest) = "END".data then rest.drop 5 else rest) := by
  induction body with
  | nil =>
    intro fuel rest hf hb hstop
    match fuel, hf with
    | fuel + 1, _ =>
      rcases hstop with h | h
      · simp only [joinLines, List.nil_append, readTextAuxF, if_pos (Or.inl h)]
        split <;> rfl
      · subst h
        simp [joinLines, readTextAuxF, getLine, checkDef]
  | cons l ls ih =>
    intro fuel rest hf hb hstop
    match fuel, hf with
    | fuel + 1, hf =>
      have hpl := hb l (by simp)
      have hparts : (∀ c ∈ l, ¬ c = '\n') ∧ checkDef (l ++ ['\n']) = [] := by
        simpa [plainLine, List.all_eq_true] using hpl
      have hnl := hparts.1
      have hcd := hparts.2
      have harr : joinLines (l :: ls) ++ rest = (l ++ ['\n']) ++ (joinLines ls ++ rest) := by
        simp [joinLines]
      rw [harr, readTextAuxF]
      have hgl : getLine ((l ++ ['\n']) ++ (joinLines ls ++ rest)) = l ++ ['\n'] := by
        have h2 : (l ++ ['\n']) ++ (joinLines ls ++ rest) = l ++ '\n' :: (joinLines ls ++ rest) := by
          simp
        rw [h2, getLine_joined hnl]
      rw [hgl, hcd]
      rw [if_neg (by simp)]
      rw [List.drop_left]
      rw [ih fuel rest (by simpa using Nat.lt_of_succ_lt_succ hf)
        (fun x hx => hb x (by simp [hx])) hstop]
      simp [joinLines]

/-- Trimming a lone newline yields the empty string. -/
theorem trimSpace_nl : trimSpace ['\n'] = [] := rfl

/-- The block reader in multi-line form (marker line with blank
remainder) on a body of non-marker lines followed by a stop position. -/
theorem readText_multiline_joined (body : List Str) (rest : Str)
    (hb : ∀ l ∈ body, plainLine l = true)
    (hstop : ¬ checkDef (getLine rest) = [] ∨ rest = []) :
    readText ('\n' :: (joinLines body ++ rest)) =
      (joinLines body, if checkDef (getLine rest) = "END".data then rest.drop 5 else rest) := by
  rw [readText]
  have hgl : getLine ('\n' :: (joinLines body ++ rest)) = ['\n'] := by simp [getLine]
  rw [hgl, trimSpace_nl]
  rw [if_neg (by simp)]
  simp only [List.length_cons, List.length_nil, List.drop_succ_cons, List.drop_zero]
  exact readTextAuxF_joined body ((joinLines body ++ rest).length + 1) rest
    (Nat.lt_succ_of_le (le_trans (joinLines_length_ge body) (by simp)))
    hb hstop

/-- A line starting with the five characters of the `=END=` token is
recognized as the `END` marker whatever follows on the line. -/
theorem checkDef_end_line (tail : Str) :
    checkDef (getLine ('=' :: 'E' :: 'N' :: 'D' :: '=' :: tail)) = "END".data := by
  have h1 : getLine ('=' :: 'E' :: 'N' :: 'D' :: '=' :: tail) =
      '=' :: 'E' :: 'N' :: 'D' :: '=' :: getLine tail := by
    simp [getLine]
  rw [h1]
  simp [checkDef, eqIdx, isName, isNameChar, isLetterC, isDecimalC, lowerN]

/-- A decimal digit is not a sign character. -/
theorem isDecimalC_ne_sign {c : Char} (h : isDecimalC c = true) : ¬ c = '+' ∧ ¬ c = '-' := by
  constructor <;> intro he <;> subst he <;> simp [isDecimalC] at h

/-- Binding a marker to a single exported integer field reduces to the
integer conversion of the trimmed text. -/
theorem setValAux_int (gn text : Str) (v : Value) :
    setValAux [⟨gn, .int, true⟩] [v] (toSnakeCase gn) text =
      match parseIntGo (trimSpace text) with
      | .error e => .error ("invalid value for struct field ".data ++ goQuote gn ++ ": ".data ++ e)
      | .ok i => .ok [.vint i] := by
  simp [setValAux]

/-- The integer conversion accepts an optional single sign followed by
digits, within the 64-bit signed range. -/
theorem parseIntGo_signed (ds sgn : Str)
    (hsgn : sgn = [] ∨ sgn = ['+'] ∨ sgn = ['-'])
    (hne : ¬ ds = [])
    (hall : ds.all isDecimalC = true)
    (hlt : digitsToNat ds < 2 ^ 63) :
    parseIntGo (sgn ++ ds) =
      .ok (if sgn = ['-'] then -(digitsToNat ds : Int) else (digitsToNat ds : Int)) := by
  have hsplit : intSyntaxSplit (sgn ++ ds) = ((sgn = ['-'] : Bool), ds) := by
    rcases hsgn with h | h | h <;> subst h
    · match ds, hne with
      | d :: dr, _ =>
        have hd := isDecimalC_ne_sign (List.all_eq_true.mp hall d (by simp))
        simp [intSyntaxSplit, hd.1, hd.2]
    · simp [intSyntaxSplit]
    · simp [intSyntaxSplit]
  have hlt2 : digitsToNat ds < 9223372036854775808 := by norm_num at hlt; exact hlt
  simp only [parseIntGo, hsplit]
  rw [if_neg (by simp [hne, hall])]
  rcases hsgn with h | h | h <;> subst h <;> simp [hlt2, Nat.le_of_lt hlt2]

/-- The integer conversion rejects every payload that is not an
optionally signed digit string, with the Go error text. -/
theorem parseIntGo_bad_syntax (s : Str) (h : goIntSyntax s = false) :
    parseIntGo s =
      .error ("strconv.ParseInt: parsing ".data ++ goQuote s ++ ": invalid syntax".data) := by
  have hsyn : (intSyntaxSplit s).2 = [] ∨ ¬ (intSyntaxSplit s).2.all isDecimalC = true := by
    by_cases h1 : (intSyntaxSplit s).2 = []
    · exact Or.inl h1
    · right
      intro h2
      simp [goIntSyntax, h1, h2] at h
  simp only [parseIntGo, if_pos hsyn]

/-! Claim theorems, counterexamples and witnesses. -/

/-- C1: in the main loop, a title marker seen while the open record's
title is already bound appends a fresh zeroed record to the output list
and resets the per-record seen set (to just the title, which the title
binding marks seen), the new record's title value becoming the block
text; a non-title marker already in the seen set of the open record
aborts the parse with exactly the error
`found multiple =NAME= in test with =TITLE=value`
(`foundMultipleMsg name title tVal`). -/
theorem claim1_title_repeat_and_duplicate_marker
    (fields : List Field) (title : Str) (fuel : Nat) (s : PState)
    (recs : List Rec) (seen : List Str) (tVal : Str) (first : Bool) :
    (∀ name s1 text s2 recs2,
      readDef s = .ok (name, s1) →
      name = title →
      ¬ name = [] → ¬ name = "TEMPL".data → ¬ name = "SUBST".data →
      readExpandedText s1 = .ok (text, s2) →
      seen.contains title = true →
      setValLast fields (recs ++ [zeroRec fields]) title text = .ok recs2 →
      parseLoop fields title (fuel + 1) s recs seen tVal first =
        parseLoop fields title fuel s2 recs2 [title] text false)
    ∧
    (∀ name s1 text s2,
      readDef s = .ok (name, s1) →
      ¬ name = title →
      ¬ name = [] → ¬ name = "TEMPL".data → ¬ name = "SUBST".data →
      readExpandedText s1 = .ok (text, s2) →
      first = false →
      seen.contains name = true →
      parseLoop fields title (fuel + 1) s recs seen tVal first =
        .err (foundMultipleMsg name title tVal) recs) := by
  constructor
  · intro name s1 text s2 recs2 hrd hnt hne htl hsb hret hseen hset
    subst hnt
    simp only [parseLoop, hrd, if_neg hne, if_neg htl, if_neg hsb, hret, if_pos rfl, hseen,
      if_pos, hset]
  · intro name s1 text s2 hrd hnt hne htl hsb hret hfirst hseen
    subst hfirst
    simp only [parseLoop, hrd, if_neg hne, if_neg htl, if_neg hsb, hret, if_neg hnt, hseen,
      Bool.false_eq_true, if_false, if_pos]

/-- Witness for C1: a repeated title on a record with bound title starts
record two, and a repeated non-title marker fails with the duplicate
error. -/
theorem claim1_witness :
    (parseLoop fieldsTI "TITLE".data (1 + 1) (exSt "=TITLE=t2\n")
        [[Value.vstr "t1".data, Value.vstr "x".data]]
        ["TITLE".data, "INPUT".data] "t1".data false =
      parseLoop fieldsTI "TITLE".data 1
        { src := "=TITLE=t2\n".data, rest := [], templates := [], filename := "file" }
        [[Value.vstr "t1".data, Value.vstr "x".data],
         [Value.vstr "t2".data, Value.vstr []]]
        ["TITLE".data] "t2".data false)
    ∧
    (parseLoop fieldsTI "TITLE".data (1 + 1) (exSt "=INPUT=y\n")
        [[Value.vstr "t1".data, Value.vstr "x".data]]
        ["INPUT".data] "t1".data false =
      .err (foundMultipleMsg "INPUT".data "TITLE".data "t1".data)
        [[Value.vstr "t1".data, Value.vstr "x".data]]) := by
  constructor
  · exact (claim1_title_repeat_and_duplicate_marker fieldsTI "TITLE".data 1
      (exSt "=TITLE=t2\n") [[Value.vstr "t1".data, Value.vstr "x".data]]
      ["TITLE".data, "INPUT".data] "t1".data false).1
      "TITLE".data
      { src := "=TITLE=t2\n".data, rest := "t2\n".data, templates := [], filename := "file" }
      "t2".data
      { src := "=TITLE=t2\n".data, rest := [], templates := [], filename := "file" }
      [[Value.vstr "t1".data, Value.vstr "x".data], [Value.vstr "t2".data, Value.vstr []]]
      (by decide) rfl (by decide) (by decide) (by decide) (by decide) (by decide) (by decide)
  · exact (claim1_title_repeat_and_duplicate_marker fieldsTI "TITLE".data 1
      (exSt "=INPUT=y\n") [[Value.vstr "t1".data, Value.vstr "x".data]]
      ["INPUT".data] "t1".data false).2
      "INPUT".data
      { src := "=INPUT=y\n".data, rest := "y\n".data, templates := [], filename := "file" }
      "y".data
      { src := "=INPUT=y\n".data, rest := [], templates := [], filename := "file" }
      (by decide) (by decide) (by decide) (by decide) (by decide) (by decide) rfl (by decide)

/-- C2: parsing the six-line scenario document against the
Title/Input schema yields one record with Title `t1` and Input
`number 42 WINS`: the template body is registered, the template call is
replaced by the body, the SUBST rule rewrites `wins` to `WINS`. -/
theorem claim2_template_and_subst_scenario :
    parse fieldsTI
      "=TEMPL=input\nnumber 42 wins\n=END=\n=TITLE=t1\n=INPUT=[[input]]\n=SUBST=/wins/WINS/\n"
      "file" =
      .ok [[Value.vstr "t1".data, Value.vstr "number 42 WINS".data]] := by
  decide

/-- Counterexample to C3: in the multi-line form, a blank line does not
terminate the block; the body `foo`, blank, `bar` before `=END=` is
accumulated whole, so the block is not cut at the blank line after
`foo`. -/
theorem claim3_counterexample :
    (readText "\nfoo\n\nbar\n=END=\n".data).1 = "foo\n\nbar\n".data ∧
    ¬ (readText "\nfoo\n\nbar\n=END=\n".data).1 = "foo\n".data := by
  decide

/-- C3 (amended): multi-line accumulation stops exactly at the first
marker line or at end-of-input; blank lines do not terminate the block
and are accumulated verbatim (the body lines below are only required to
be newline-free non-marker lines, so blank lines are allowed). -/
theorem claim3_multiline_stops_only_at_marker_or_eof
    (body : List Str) (rest : Str)
    (hb : ∀ l ∈ body, plainLine l = true)
    (hstop : ¬ checkDef (getLine rest) = [] ∨ rest = []) :
    readText ('\n' :: (joinLines body ++ rest)) =
      (joinLines body, if checkDef (getLine rest) = "END".data then rest.drop 5 else rest) :=
  readText_multiline_joined body rest hb hstop

/-- Witness for C3 at a body containing a blank line, stopped by a
`=TITLE=` marker line. -/
theorem claim3_witness :
    readText ('\n' :: (joinLines ["foo".data, [], "bar".data] ++ "=TITLE=x".data)) =
      (joinLines ["foo".data, [], "bar".data],
        if checkDef (getLine "=TITLE=x".data) = "END".data
        then List.drop 5 "=TITLE=x".data else "=TITLE=x".data) :=
  claim3_multiline_stops_only_at_marker_or_eof ["foo".data, [], "bar".data] "=TITLE=x".data
    (by decide) (Or.inl (by decide))

/-- Counterexample to C4: after the failed parse of
`=TITLE=t1`, `=X= y` the caller-supplied slice holds a partially
populated record (title bound to `t1`) alongside the error. -/
theorem claim4_counterexample :
    parse fieldsTI "=TITLE=t1\n=X= y\n" "file" =
      .err "unexpected =X= in test with =TITLE=t1".data
        [[Value.vstr "t1".data, Value.vstr []]] ∧
    ¬ [Value.vstr "t1".data, Value.vstr []] = zeroRec fieldsTI := by
  decide

/-- C4 (amended): the return value of a failed parse carries only the
error, but the caller-supplied slice retains the records appended before
the failure, partially populated; here the duplicate-marker failure
leaves one record with Title `t1` and Input `abc` bound. -/
theorem claim4_partial_records_remain_on_error :
    parse fieldsTI "\n=TITLE=t1\n=INPUT=\nabc\n=INPUT=\ndef\n=END=\n" "file" =
      .err "found multiple =INPUT= in test with =TITLE=t1".data
        [[Value.vstr "t1".data, Value.vstr "abc\n".data]] ∧
    ¬ [Value.vstr "t1".data, Value.vstr "abc\n".data] = zeroRec fieldsTI := by
  decide

/-- Counterexample to C5: a schema with a field of unsupported (slice)
type parses a document that never uses that field without any error, so
the bad declaration is not detected before scanning independently of the
document. -/
theorem claim5_counterexample :
    parse fieldsBad "=TITLE= test" "file" =
      .ok [[Value.vstr "test".data, Value.vstr []]] := by
  decide

/-- C5 (amended): the empty-field-list check fires before any input is
scanned and independently of the document, while unsupported-field-type
errors are raised lazily, only when a marker bound to the bad field is
processed (and then with record context). -/
theorem claim5_shape_check_timing :
    (∀ (doc : String) (fname : String),
      parse [] doc fname = .err "expecting struct with at least one field".data [[]]) ∧
    parse fieldsBad "=TITLE= test" "file" = .ok [[Value.vstr "test".data, Value.vstr []]] ∧
    parse fieldsBad "=TITLE= t\n=BAD= x\n" "file" =
      .err "unexpected type \"slice\" of struct field \"Bad\" in test with =TITLE=t".data
        [[Value.vstr "t".data, Value.vstr []]] := by
  refine ⟨fun doc fname => rfl, by decide, by decide⟩

/-- Counterexample to C6: the scanner-level syntax error raised while a
record is open (title `test` bound) does not carry the
`in test with =TITLE=...` context. -/
theorem claim6_counterexample :
    parse fieldsTI "\n=TITLE= test\n=INPUT=abc\ndef\n" "file" =
      .err (expectTokMsg 4 "file" "def".data)
        [[Value.vstr "test".data, Value.vstr "abc".data]] ∧
    hasInfix (expectTokMsg 4 "file" "def".data) "in test with".data = false := by
  decide

/-- C6 (amended): errors routed through the context wrapper carry
`in test with =TITLE=<value>` when a record is open and `in file <name>`
otherwise, while scanner-level syntax errors carry only the 1-based line
number, the file name and the raw line, without the record context. -/
theorem claim6_error_contexts :
    parse fieldsTI "\n=TITLE= t1\n=X= y\n" "file" =
      .err "unexpected =X= in test with =TITLE=t1".data
        [[Value.vstr "t1".data, Value.vstr []]] ∧
    parse fieldsTI "=SUBST=/test/foo/" "file" =
      .err "=SUBST= is only valid at bottom of text block in file \"file\"".data
        [[Value.vstr [], Value.vstr []]] ∧
    parse fieldsTI "=TITLE= t\n=INPUT=abc\nxyz\n" "file" =
      .err (expectTokMsg 3 "file" "xyz".data)
        [[Value.vstr "t".data, Value.vstr "abc".data]] ∧
    hasInfix (expectTokMsg 3 "file" "xyz".data) "in test with".data = false := by
  refine ⟨by decide, by decide, by decide, by decide⟩

/-- C7: coercion for an integer field accepts an optional single leading
sign with surrounding whitespace trimmed (generally, and concretely
mapping `  -654321` to `-654321`), and fails the parse with the
`invalid value` error naming the field whenever the trimmed payload is
not a signed decimal digit string. -/
theorem claim7_integer_coercion :
    (∀ (gn text ds sgn : Str) (v : Value),
      (sgn = [] ∨ sgn = ['+'] ∨ sgn = ['-']) →
      trimSpace text = sgn ++ ds →
      ¬ ds = [] →
      ds.all isDecimalC = true →
      digitsToNat ds < 2 ^ 63 →
      setValAux [⟨gn, .int, true⟩] [v] (toSnakeCase gn) text =
        .ok [.vint (if sgn = ['-'] then -(digitsToNat ds : Int) else (digitsToNat ds : Int))])
    ∧
    (∀ (gn text : Str) (v : Value),
      goIntSyntax (trimSpace text) = false →
      setValAux [⟨gn, .int, true⟩] [v] (toSnakeCase gn) text =
        .error ("invalid value for struct field ".data ++ goQuote gn ++
          ": strconv.ParseInt: parsing ".data ++ goQuote (trimSpace text) ++
          ": invalid syntax".data))
    ∧
    parse fieldsTC "=TITLE=t1\n=COUNT=  -654321\n" "file" =
      .ok [[Value.vstr "t1".data, Value.vint (-654321)]]
    ∧
    parse fieldsTC "\n=TITLE= t1\n=COUNT= two\n" "file" =
      .err ("invalid value for struct field \"Count\": strconv.ParseInt: parsing \"two\": invalid syntax in test with =TITLE=t1".data)
        [[Value.vstr "t1".data, Value.vint 0]] := by
  refine ⟨?_, ?_, by decide, by decide⟩
  · intro gn text ds sgn v hsgn htrim hne hall hlt
    rw [setValAux_int, htrim, parseIntGo_signed ds sgn hsgn hne hall hlt]
  · intro gn text v h
    rw [setValAux_int, parseIntGo_bad_syntax (trimSpace text) h]
    simp

/-- Witness for C7: the accepting direction at `  -654321` and the
rejecting direction at `two`. -/
theorem claim7_witness :
    (setValAux [⟨"Count".data, .int, true⟩] [Value.vint 0] (toSnakeCase "Count".data)
        "  -654321".data =
      .ok [.vint (if (['-'] : Str) = ['-']
        then -(digitsToNat "654321".data : Int) else (digitsToNat "654321".data : Int))])
    ∧
    (setValAux [⟨"Count".data, .int, true⟩] [Value.vint 0] (toSnakeCase "Count".data)
        "two".data =
      .error ("invalid value for struct field ".data ++ goQuote "Count".data ++
        ": strconv.ParseInt: parsing ".data ++ goQuote (trimSpace "two".data) ++
        ": invalid syntax".data)) := by
  constructor
  · exact claim7_integer_coercion.1 "Count".data "  -654321".data "654321".data ['-']
      (Value.vint 0) (Or.inr (Or.inr rfl)) (by decide) (by decide) (by decide) (by decide)
  · exact claim7_integer_coercion.2.1 "Count".data "two".data (Value.vint 0) (by decide)

/-- C8: the expansion pipeline is the identity on a block whose raw text
contains no two consecutive opening brackets (no template-call start)
when the scanner position after the block does not begin with a
`=SUBST=` line: the expanded text and the cursor are unchanged. -/
theorem claim8_expansion_identity (s : PState)
    (hnc : noCall (readText s.rest).1 = true)
    (hns : ¬ checkDef (getLine (readText s.rest).2) = "SUBST".data) :
    readExpandedText s = .ok ((readText s.rest).1, { s with rest := (readText s.rest).2 }) := by
  simp only [readExpandedText, doTemplSubst]
  rw [doTemplSubstAuxF_of_noCall s.templates _ _ hnc]
  simp only [applySubstF, if_neg hns]

/-- Witness for C8 at the block `hello` followed by marker `=A=`. -/
theorem claim8_witness :
    readExpandedText (exSt "hello\n=A=x\n") =
      .ok ((readText (exSt "hello\n=A=x\n").rest).1,
        { exSt "hello\n=A=x\n" with rest := (readText (exSt "hello\n=A=x\n").rest).2 }) :=
  claim8_expansion_identity (exSt "hello\n=A=x\n") (by decide) (by decide)

/-- Counterexample to C9: reading the multi-line block `abc` terminated
by the line `=END= tail`, part of the `=END=` line (everything after the
closing `=`) is left in the input for the next scan. -/
theorem claim9_counterexample :
    (readText "\nabc\n=END= tail\n".data).2 = " tail\n".data ∧
    ¬ (readText "\nabc\n=END= tail\n".data).2 = ([] : Str) := by
  decide

/-- C9 (amended): a multi-line block terminated by an explicit `=END=`
marker line consumes exactly the five characters `=END=`; everything
after them on that line (any trailing text and the newline itself)
remains in the input. -/
theorem claim9_end_consumes_marker_only (body : List Str) (tail : Str)
    (hb : ∀ l ∈ body, plainLine l = true) :
    readText ('\n' :: (joinLines body ++ ("=END=".data ++ tail))) = (joinLines body, tail) := by
  have hrest : "=END=".data ++ tail = '=' :: 'E' :: 'N' :: 'D' :: '=' :: tail := rfl
  rw [hrest]
  rw [readText_multiline_joined body _ hb (Or.inl (by rw [checkDef_end_line]; simp))]
  rw [checkDef_end_line]
  simp

/-- Witness for C9 at the body `abc` and the leftover `junk` line. -/
theorem claim9_witness :
    readText ('\n' :: (joinLines ["abc".data] ++ ("=END=".data ++ "junk\n".data))) =
      (joinLines ["abc".data], "junk\n".data) :=
  claim9_end_consumes_marker_only ["abc".data] "junk\n".data (by decide)

/-- C10: templates are expanded at registration time; in the document
registering `A` as `v1`, then `B` as `[[A]]`, then redefining `A` as
`v2`, a later call `[[B]]` still produces `v1` (the expansion of `A`
current at the registration of `B`) while a direct call `[[A]]`
produces `v2`; generally, a new registry binding for one name does not
change the lookup of any other name. -/
theorem claim10_registration_time_expansion :
    parse fieldsTIO
      "=TEMPL=A\nv1\n=TEMPL=B\n[[A]]\n=TEMPL=A\nv2\n=TITLE=t1\n=INPUT=[[B]]\n=OTHER=[[A]]\n"
      "file" =
      .ok [[Value.vstr "t1".data, Value.vstr "v1".data, Value.vstr "v2".data]]
    ∧
    (∀ (tm : List (Str × Str)) (a b body : Str),
      ¬ b = a → lookupT ((a, body) :: tm) b = lookupT tm b) := by
  refine ⟨by decide, fun tm a b body h => ?_⟩
  rw [lookupT, if_neg (fun he : a = b => h he.symm)]

/-- Witness for C10: shadowing `A` leaves the lookup of `B` unchanged. -/
theorem claim10_witness :
    lookupT (("A".data, "x".data) :: []) "B".data = lookupT [] "B".data :=
  claim10_registration_time_expansion.2 [] "A".data "B".data "x".data (by decide)

end Testtxt
